import Mathlib

/-!
Shallow embedding of the `django-site-map` repository (app `myapp`):
the `Snippet` model with its slug-deriving `save` and `get_absolute_url`
(models.py), the `about` and `snippet_detail` views (views.py), the
`urlpatterns` route table (urls.py), and the two sitemap classes
(sitemaps.py).  Strings are modelled as `List Char`.
-/

namespace DjangoSiteMap

/-- Characters below code point 128 that Python's regular-expression class
backslash-s matches: space, tab, newline, carriage return, vertical tab,
form feed, and the file/group/record/unit separators 28-31. -/
def pyIsSpace (c : Char) : Bool :=
  c = ' ' || c = '\t' || c = '\n' || c = '\r' ||
  c.toNat = 11 || c.toNat = 12 || c.toNat = 28 || c.toNat = 29 ||
  c.toNat = 30 || c.toNat = 31

/-- ASCII characters matched by Python's regular-expression class
backslash-w: letters, digits and underscore. -/
def pyIsWord (c : Char) : Bool :=
  c.isAlpha || c.isDigit || c = '_'

/-- Characters the second substitution in `slugify` collapses: hyphen or
whitespace (the regex class of hyphen and backslash-s). -/
def isSep (c : Char) : Bool :=
  c = '-' || pyIsSpace c

/-- Characters removed from both ends by the final `.strip("-_")` of
`slugify`. -/
def isStripChar (c : Char) : Bool :=
  c = '-' || c = '_'

/-- Replacement of every maximal run of separator characters by a single
hyphen: the effect of Python's `re.sub` with pattern "one or more hyphens
or whitespace" and replacement "-".  The Boolean argument records whether
the previous character belonged to a separator run. -/
def collapseSeps : Bool → List Char → List Char
  | _, [] => []
  | prevSep, c :: rest =>
    if isSep c then
      if prevSep then collapseSeps true rest
      else '-' :: collapseSeps true rest
    else c :: collapseSeps false rest

/-- Removal of the trailing characters satisfying `p` (used for the end of
`.strip("-_")`). -/
def stripEnd (p : Char → Bool) (l : List Char) : List Char :=
  (l.reverse.dropWhile p).reverse

/-- Python's `value.strip("-_")`: drop leading and trailing hyphens and
underscores. -/
def stripDashUnderscore (l : List Char) : List Char :=
  stripEnd isStripChar (l.dropWhile isStripChar)

/-- Embedding of `django.utils.text.slugify` as called by
`Snippet.save` in models.py (the `allow_unicode := false` branch).  The
framework-owned Unicode NFKD normalization step
(`unicodedata.normalize`) is taken as a parameter `nfkd`; every theorem
below quantifies over it, and for ASCII titles the identity function is
the correct instance since ASCII strings are NFKD-fixed.  The remaining
steps follow the source: encode to ASCII dropping non-ASCII code points,
lowercase, delete every character that is not a word character,
whitespace or hyphen, collapse runs of hyphens and whitespace to single
hyphens, and strip leading and trailing hyphens and underscores. -/
def slugify (nfkd : List Char → List Char) (value : List Char) : List Char :=
  let ascii := (nfkd value).filter (fun c => c.toNat < 128)
  let lowered := ascii.map Char.toLower
  let kept := lowered.filter (fun c => pyIsWord c || pyIsSpace c || c = '-')
  stripDashUnderscore (collapseSeps false kept)

/-- Embedding of the `Snippet` model of models.py: `title` is a
`CharField`, `slug` a nullable `SlugField` (hence `Option`), `body` a
`TextField`. -/
structure Snippet where
  title : List Char
  slug : Option (List Char)
  body : List Char
deriving DecidableEq, Repr

/-- Embedding of `Snippet.save` from models.py: it sets
`self.slug = slugify(self.title)` and then delegates the write to the
framework (the write itself is modelled by the store operations below). -/
def Snippet.save (nfkd : List Char → List Char) (s : Snippet) : Snippet :=
  { s with slug := some (slugify nfkd s.title) }

/-- Embedding of `Snippet.get_absolute_url` from models.py: the Python
f-string `'/{self.slug}'`.  When `slug` is the null value the f-string
renders the text `None`, which the embedding reproduces. -/
def Snippet.get_absolute_url (s : Snippet) : List Char :=
  '/' :: (match s.slug with
          | some sl => sl
          | none => "None".data)

/-- Record-store operations that reach `Snippet.save`: creating a fresh
record from a title and body, or re-saving the record at an index with a
new title and body (spec section 3: "A Snippet is mutated by re-supplying
title/body, which re-derives slug"). -/
inductive Op where
  | createOp (title body : List Char)
  | updateOp (i : Nat) (title body : List Char)
deriving DecidableEq, Repr

/-- State transition of the record store under one save operation; every
write goes through `Snippet.save`, as in models.py where `save` is the
only write path. -/
def applyOp (nfkd : List Char → List Char) (store : List Snippet) :
    Op → List Snippet
  | .createOp t b => store ++ [Snippet.save nfkd ⟨t, none, b⟩]
  | .updateOp i t b =>
    match store[i]? with
    | some r => store.set i (Snippet.save nfkd { r with title := t, body := b })
    | none => store

/-- Record store reached from the empty store by a sequence of save
operations. -/
def runOps (nfkd : List Char → List Char) (ops : List Op) : List Snippet :=
  ops.foldl (applyOp nfkd) []

/-- Exceptions raised by a Django `QuerySet.get` lookup: `DoesNotExist`
for zero matches, `MultipleObjectsReturned` for more than one match. -/
inductive GetException where
  | doesNotExist
  | multipleObjectsReturned
deriving DecidableEq, Repr

/-- HTTP response as produced by `django.http.HttpResponse`: a status
code and a body. -/
structure HttpResponse where
  status : Nat
  body : List Char
deriving DecidableEq, Repr

/-- Records of the store whose `slug` field equals the given slug: the
filter underlying `Snippet.objects.get(slug=slug)`. -/
def findMatches (store : List Snippet) (slug : List Char) : List Snippet :=
  store.filter (fun r => r.slug = some slug)

/-- Embedding of `Snippet.objects.get(slug=slug)`: the unique matching
record, `DoesNotExist` on zero matches, `MultipleObjectsReturned` on two
or more. -/
def objectsGet (store : List Snippet) (slug : List Char) :
    Except GetException Snippet :=
  match findMatches store slug with
  | [] => .error .doesNotExist
  | [r] => .ok r
  | _ :: _ :: _ => .error .multipleObjectsReturned

/-- Embedding of the `about` view of views.py: a fixed 200 response with
body "about page". -/
def about : HttpResponse :=
  ⟨200, "about page".data⟩

/-- Embedding of the `snippet_detail` view of views.py together with the
framework behaviour of `get_object_or_404`: `get_object_or_404` turns
`DoesNotExist` into an `Http404` which the framework renders as a 404
response, while `MultipleObjectsReturned` is not caught and escapes the
handler (the `.error` result). -/
def snippet_detail (store : List Snippet) (slug : List Char) :
    Except GetException HttpResponse :=
  match objectsGet store slug with
  | .ok _ => .ok ⟨200, "the detailview for slug of ".data ++ slug⟩
  | .error .doesNotExist => .ok ⟨404, "Not Found".data⟩
  | .error .multipleObjectsReturned => .error .multipleObjectsReturned

/-- Characters matched by Django's `slug` path converter, whose regex is
the class of hyphen, ASCII letters, digits and underscore. -/
def isSlugChar (c : Char) : Bool :=
  c = '-' || c.isAlpha || c.isDigit || c = '_'

/-- Matching of the route string `'<slug:slug>/'` of urls.py against a
path (the path as seen by the resolver, without its leading slash): the
whole path must be a non-empty run of slug characters followed by a
single trailing slash; on success the captured slug is returned. -/
def matchSlugRoute (path : List Char) : Option (List Char) :=
  if path.getLast? = some '/' ∧ path.dropLast ≠ [] ∧
      path.dropLast.all isSlugChar = true
  then some path.dropLast else none

/-- The two handlers views.py registers in the route table. -/
inductive Handler where
  | snippetDetailH
  | aboutH
deriving DecidableEq, Repr

/-- The shape of one `path(...)` entry of urls.py: either the slug
capture route `'<slug:slug>/'` or a literal route string. -/
inductive RouteKind where
  | slugRoute
  | literalRoute (lit : List Char)
deriving DecidableEq, Repr

/-- One entry of `urlpatterns`: its route shape, its handler, and its
optional route name. -/
structure UrlEntry where
  kind : RouteKind
  handler : Handler
  name : Option (List Char)
deriving DecidableEq, Repr

/-- Embedding of `urlpatterns` from urls.py, in source order: first
`path('<slug:slug>/', snippet_detail)`, then
`path('about/', about, name='about')`. -/
def urlpatterns : List UrlEntry :=
  [ ⟨.slugRoute, .snippetDetailH, none⟩,
    ⟨.literalRoute "about/".data, .aboutH, some "about".data⟩ ]

/-- Matching of one route entry against a path: the slug route captures
a slug, a literal route matches exactly its route string and captures
nothing. -/
def matchRoute (k : RouteKind) (path : List Char) :
    Option (Option (List Char)) :=
  match k with
  | .slugRoute => (matchSlugRoute path).map some
  | .literalRoute lit => if path = lit then some none else none

/-- First-match-in-order dispatch over a list of route entries, as
Django's resolver does over `urlpatterns`. -/
def dispatchIn (entries : List UrlEntry) (path : List Char) :
    Option (Handler × Option (List Char)) :=
  match entries with
  | [] => none
  | e :: rest =>
    match matchRoute e.kind path with
    | some cap => some (e.handler, cap)
    | none => dispatchIn rest path

/-- Dispatch of a path through the declared `urlpatterns`. -/
def dispatch (path : List Char) : Option (Handler × Option (List Char)) :=
  dispatchIn urlpatterns path

/-- Dispatch of an absolute request path: Django's resolver strips the
leading slash of the request path before matching it against
`urlpatterns`. -/
def siteDispatch (path : List Char) : Option (Handler × Option (List Char)) :=
  match path with
  | '/' :: rest => dispatch rest
  | _ => none

/-- Embedding of `django.shortcuts.reverse` restricted to argument-free
routes, over `urlpatterns` mounted at the site root: the concrete
absolute path of the first entry carrying the given route name. -/
def reverseName (name : List Char) : Option (List Char) :=
  (urlpatterns.find? (fun e => e.name = some name)).bind fun e =>
    match e.kind with
    | .literalRoute lit => some ('/' :: lit)
    | .slugRoute => none

/-- Embedding of `StaticViewSitemap.items` from sitemaps.py: the single
route name "about". -/
def staticViewSitemapItems : List (List Char) :=
  ["about".data]

/-- Embedding of `StaticViewSitemap.location` from sitemaps.py:
`reverse(item)`. -/
def staticViewSitemapLocation (item : List Char) : Option (List Char) :=
  reverseName item

/-- Embedding of `SnippetSitemap.items` from sitemaps.py:
`Snippet.objects.all()`, i.e. the whole store. -/
def snippetSitemapItems (store : List Snippet) : List Snippet :=
  store

/-- URL entries the sitemap framework serializes for the two declared
sitemap classes: the located static items followed by the snippets'
locations, where `SnippetSitemap` inherits the default
`Sitemap.location`, which calls `get_absolute_url`. -/
def sitemapEntries (store : List Snippet) : List (List Char) :=
  staticViewSitemapItems.filterMap staticViewSitemapLocation ++
    (snippetSitemapItems store).map Snippet.get_absolute_url


theorem uint32_le_iff (a b : UInt32) : (a ≤ b) ↔ a.toNat ≤ b.toNat := UInt32.le_def

theorem char_isLower_iff (c : Char) : c.isLower = true ↔ 97 ≤ c.toNat ∧ c.toNat ≤ 122 := by
  simp [Char.isLower, uint32_le_iff, Char.toNat, UInt32.size]

theorem char_isUpper_iff (c : Char) : c.isUpper = true ↔ 65 ≤ c.toNat ∧ c.toNat ≤ 90 := by
  simp [Char.isUpper, uint32_le_iff, Char.toNat, UInt32.size]

theorem char_isAlpha_iff (c : Char) :
    c.isAlpha = true ↔ ((65 ≤ c.toNat ∧ c.toNat ≤ 90) ∨ (97 ≤ c.toNat ∧ c.toNat ≤ 122)) := by
  simp [Char.isAlpha, char_isUpper_iff, char_isLower_iff]

theorem toNat_ofNat_le (n : Nat) (h2 : n ≤ 122) : (Char.ofNat n).toNat = n := by
  have hv : n.isValidChar := Or.inl (by omega)
  simp [Char.ofNat, hv, Char.ofNatAux, Char.toNat, UInt32.toNat]

theorem toLower_alpha_isLower (c : Char) (h : (Char.toLower c).isAlpha = true) :
    (Char.toLower c).isLower = true := by
  unfold Char.toLower at *
  by_cases hc : c.toNat ≥ 65 ∧ c.toNat ≤ 90
  · rw [if_pos hc] at *
    have ht := toNat_ofNat_le (c.toNat + 32) (by omega)
    rw [char_isLower_iff, ht]
    omega
  · rw [if_neg hc] at *
    rw [char_isLower_iff]
    rw [char_isAlpha_iff] at h
    omega

theorem mem_of_mem_dropWhileChar {p : Char → Bool} {l : List Char} {c : Char}
    (h : c ∈ l.dropWhile p) : c ∈ l :=
  List.Sublist.mem h (List.dropWhile_sublist p)

theorem head?_dropWhile_not {p : Char → Bool} {l : List Char} {c : Char}
    (h : (l.dropWhile p).head? = some c) : p c = false := by
  induction l with
  | nil => simp [List.dropWhile] at h
  | cons d rest ih =>
    rw [List.dropWhile_cons] at h
    by_cases hd : p d = true
    · rw [if_pos hd] at h
      exact ih h
    · rw [if_neg hd] at h
      simp only [List.head?_cons, Option.some.injEq] at h
      subst h
      simpa using hd

theorem mem_of_mem_stripEnd {p : Char → Bool} {l : List Char} {c : Char}
    (h : c ∈ stripEnd p l) : c ∈ l := by
  unfold stripEnd at h
  rw [List.mem_reverse] at h
  have h2 := List.Sublist.mem h (List.dropWhile_sublist p)
  rwa [List.mem_reverse] at h2

theorem getLast?_stripEnd {p : Char → Bool} {l : List Char} {c : Char}
    (h : (stripEnd p l).getLast? = some c) : p c = false := by
  unfold stripEnd at h
  rw [List.getLast?_reverse] at h
  exact head?_dropWhile_not h

theorem head?_stripEnd {p : Char → Bool} {l : List Char} {c : Char}
    (h : (stripEnd p l).head? = some c) : l.head? = some c := by
  unfold stripEnd at h
  obtain ⟨t, ht⟩ := List.dropWhile_suffix (l := l.reverse) p
  have hl : l = (l.reverse.dropWhile p).reverse ++ t.reverse := by
    rw [← List.reverse_append, ht, List.reverse_reverse]
  rw [hl, List.head?_append, h]
  rfl

theorem mem_of_mem_stripDU {l : List Char} {c : Char}
    (h : c ∈ stripDashUnderscore l) : c ∈ l := by
  unfold stripDashUnderscore at h
  exact mem_of_mem_dropWhileChar (mem_of_mem_stripEnd h)

theorem head?_stripDU {l : List Char} {c : Char}
    (h : (stripDashUnderscore l).head? = some c) : isStripChar c = false := by
  unfold stripDashUnderscore at h
  exact head?_dropWhile_not (head?_stripEnd h)

theorem getLast?_stripDU {l : List Char} {c : Char}
    (h : (stripDashUnderscore l).getLast? = some c) : isStripChar c = false := by
  unfold stripDashUnderscore at h
  exact getLast?_stripEnd h

theorem mem_collapseSeps {b : Bool} {l : List Char} {c : Char}
    (h : c ∈ collapseSeps b l) : c = '-' ∨ (c ∈ l ∧ isSep c = false) := by
  induction l generalizing b with
  | nil => simp [collapseSeps] at h
  | cons d rest ih =>
    by_cases hd : isSep d = true
    · rw [collapseSeps, if_pos hd] at h
      cases b with
      | true =>
        rcases ih h with h1 | ⟨h2, h3⟩
        · exact Or.inl h1
        · exact Or.inr ⟨List.mem_cons_of_mem _ h2, h3⟩
      | false =>
        rcases List.mem_cons.mp h with rfl | h
        · exact Or.inl rfl
        · rcases ih h with h1 | ⟨h2, h3⟩
          · exact Or.inl h1
          · exact Or.inr ⟨List.mem_cons_of_mem _ h2, h3⟩
    · rw [collapseSeps, if_neg hd] at h
      rcases List.mem_cons.mp h with rfl | h
      · exact Or.inr ⟨List.mem_cons_self _ _, by simpa using hd⟩
      · rcases ih h with h1 | ⟨h2, h3⟩
        · exact Or.inl h1
        · exact Or.inr ⟨List.mem_cons_of_mem _ h2, h3⟩

theorem slugify_mem (nfkd : List Char → List Char) (value : List Char) (c : Char)
    (h : c ∈ slugify nfkd value) :
    c.isLower = true ∨ c.isDigit = true ∨ c = '-' ∨ c = '_' := by
  simp only [slugify] at h
  have h1 := mem_of_mem_stripDU h
  rcases mem_collapseSeps h1 with rfl | ⟨h2, h3⟩
  · exact Or.inr (Or.inr (Or.inl rfl))
  · rw [List.mem_filter] at h2
    obtain ⟨hmap, hpred⟩ := h2
    rw [List.mem_map] at hmap
    obtain ⟨d, _, rfl⟩ := hmap
    simp only [Bool.or_eq_true, decide_eq_true_eq] at hpred
    rcases hpred with (hw | hs) | hdash
    · simp only [pyIsWord, Bool.or_eq_true, decide_eq_true_eq] at hw
      rcases hw with (ha | hd2) | hu
      · exact Or.inl (toLower_alpha_isLower d ha)
      · exact Or.inr (Or.inl hd2)
      · exact Or.inr (Or.inr (Or.inr hu))
    · exact absurd h3 (by simp [isSep, hs])
    · exact absurd h3 (by simp [isSep, hdash])

theorem slugify_head? (nfkd : List Char → List Char) (value : List Char) (c : Char)
    (h : (slugify nfkd value).head? = some c) : c ≠ '-' ∧ c ≠ '_' := by
  simp only [slugify] at h
  have h1 := head?_stripDU h
  simpa [isStripChar] using h1

theorem slugify_getLast? (nfkd : List Char → List Char) (value : List Char) (c : Char)
    (h : (slugify nfkd value).getLast? = some c) : c ≠ '-' ∧ c ≠ '_' := by
  simp only [slugify] at h
  have h1 := getLast?_stripDU h
  simpa [isStripChar] using h1

theorem pyIsSpace_toNat_le (c : Char) (h : pyIsSpace c = true) : c.toNat ≤ 32 := by
  simp only [pyIsSpace, Bool.or_eq_true, decide_eq_true_eq] at h
  rcases h with ((((((((h | h) | h) | h) | h) | h) | h) | h) | h) | h <;>
    first
      | (subst h; decide)
      | omega

theorem pyIsSpace_toNat_lt (c : Char) (h : pyIsSpace c = true) : c.toNat < 128 := by
  have := pyIsSpace_toNat_le c h
  omega

theorem toLower_of_space (c : Char) (h : pyIsSpace c = true) : Char.toLower c = c := by
  have hle := pyIsSpace_toNat_le c h
  simp only [Char.toLower]
  rw [if_neg (by omega : ¬(c.toNat ≥ 65 ∧ c.toNat ≤ 90))]

theorem collapseSeps_true_all_sep (l : List Char) (h : ∀ c ∈ l, isSep c = true) :
    collapseSeps true l = [] := by
  induction l with
  | nil => rfl
  | cons d rest ih =>
    have hd := h d (List.mem_cons_self d rest)
    simp only [collapseSeps, hd, if_true]
    exact ih (fun c hc => h c (List.mem_cons_of_mem d hc))

theorem stripDU_collapseSeps_all_sep (l : List Char) (h : ∀ c ∈ l, isSep c = true) :
    stripDashUnderscore (collapseSeps false l) = [] := by
  cases l with
  | nil => rfl
  | cons d rest =>
    have hd := h d (List.mem_cons_self d rest)
    simp only [collapseSeps, hd, if_true, if_false]
    rw [collapseSeps_true_all_sep rest (fun c hc => h c (List.mem_cons_of_mem d hc))]
    rfl

theorem applyOp_keeps_slug_sync (nfkd : List Char → List Char)
    (store : List Snippet) (op : Op)
    (h : ∀ r ∈ store, r.slug = some (slugify nfkd r.title)) :
    ∀ r ∈ applyOp nfkd store op, r.slug = some (slugify nfkd r.title) := by
  intro r hr
  cases op with
  | createOp t b =>
    rcases List.mem_append.mp hr with hr | hr
    · exact h r hr
    · rcases List.mem_singleton.mp hr with rfl
      rfl
  | updateOp i t b =>
    simp only [applyOp] at hr
    cases hs : store[i]? with
    | none =>
      rw [hs] at hr
      exact h r hr
    | some q =>
      rw [hs] at hr
      rcases List.mem_or_eq_of_mem_set hr with hr | rfl
      · exact h r hr
      · rfl

theorem runOps_slug_sync_aux (nfkd : List Char → List Char) (ops : List Op)
    (store : List Snippet)
    (h : ∀ r ∈ store, r.slug = some (slugify nfkd r.title)) :
    ∀ r ∈ ops.foldl (applyOp nfkd) store, r.slug = some (slugify nfkd r.title) := by
  induction ops generalizing store with
  | nil => simpa using h
  | cons op rest ih =>
    intro r hr
    exact ih (applyOp nfkd store op)
      (applyOp_keeps_slug_sync nfkd store op h) r hr

theorem matchSlugRoute_slugify_none (nfkd : List Char → List Char)
    (title : List Char) : matchSlugRoute (slugify nfkd title) = none := by
  unfold matchSlugRoute
  rw [if_neg]
  rintro ⟨h1, -, -⟩
  have hmem := List.mem_of_mem_getLast? h1
  rcases slugify_mem nfkd title '/' hmem with h | h | h | h <;>
    exact absurd h (by decide)

/-- C1: the claim says `GET /about/` dispatches to the about handler, but
under first-match-in-order dispatch over the declared `urlpatterns` the
route `'<slug:slug>/'` is listed first and matches the path `about/`, so
the request is dispatched to `snippet_detail` with captured slug `about`
and never reaches the about handler. -/
theorem about_path_dispatches_to_detail :
    siteDispatch "/about/".data
      = some (Handler.snippetDetailH, some "about".data) ∧
    siteDispatch "/about/".data ≠ some (Handler.aboutH, none) := by
  decide

/-- C2 counterexample: the slug of the title `a_b` is `a_b`, which
contains an underscore, a character that is neither a lowercase letter
nor a digit nor a hyphen; and punctuation such as the exclamation mark in
`a!b` is removed outright rather than collapsed to a hyphen. -/
theorem slug_charset_counterexample :
    '_' ∈ slugify id "a_b".data ∧
    ¬ ('_'.isLower = true ∨ '_'.isDigit = true ∨ '_' = '-') ∧
    slugify id "a!b".data = "ab".data := by
  decide

/-- C2 (amended): for every title (for every Unicode normalization the
framework applies), the slug derived via `slugify` contains only
lowercase ASCII letters, digits, hyphens, and underscores, and has no
leading or trailing hyphen or underscore. -/
theorem slug_charset_amended (nfkd : List Char → List Char)
    (value : List Char) :
    (∀ c ∈ slugify nfkd value,
      c.isLower = true ∨ c.isDigit = true ∨ c = '-' ∨ c = '_') ∧
    (∀ c, (slugify nfkd value).head? = some c → c ≠ '-' ∧ c ≠ '_') ∧
    (∀ c, (slugify nfkd value).getLast? = some c → c ≠ '-' ∧ c ≠ '_') :=
  ⟨fun c hc => slugify_mem nfkd value c hc,
   fun c hc => slugify_head? nfkd value c hc,
   fun c hc => slugify_getLast? nfkd value c hc⟩

theorem slug_charset_amended_witness :
    'a'.isLower = true ∨ 'a'.isDigit = true ∨ 'a' = '-' ∨ 'a' = '_' :=
  (slug_charset_amended id "a_b".data).1 'a' (by decide)

/-- C3: after any sequence of saves starting from the empty record store,
every stored Snippet has `slug` equal to `slugify` of its own `title`:
the store never observes a record whose slug is out of sync with its
title. -/
theorem saved_slug_never_stale (nfkd : List Char → List Char)
    (ops : List Op) :
    ∀ r ∈ runOps nfkd ops, r.slug = some (slugify nfkd r.title) :=
  runOps_slug_sync_aux nfkd ops [] (by simp)

theorem saved_slug_never_stale_witness :
    (Snippet.mk "Hello World".data (some "hello-world".data) "B".data).slug
      = some (slugify id
          (Snippet.mk "Hello World".data
            (some "hello-world".data) "B".data).title) :=
  saved_slug_never_stale id [Op.createOp "Hello World".data "B".data]
    (Snippet.mk "Hello World".data (some "hello-world".data) "B".data)
    (by decide)

/-- C4: the detail handler answers with the 404 response exactly when no
stored Snippet has the requested slug, and when exactly one record
matches it answers with status 200 and a body that contains the literal
slug (as a suffix of the fixed message). -/
theorem snippet_detail_contract (store : List Snippet) (slug : List Char) :
    (snippet_detail store slug = .ok ⟨404, "Not Found".data⟩
      ↔ findMatches store slug = []) ∧
    ((findMatches store slug).length = 1 →
      snippet_detail store slug
        = .ok ⟨200, "the detailview for slug of ".data ++ slug⟩ ∧
      slug <:+ "the detailview for slug of ".data ++ slug) := by
  rcases hm : findMatches store slug with _ | ⟨r, rest⟩
  · constructor
    · simp [snippet_detail, objectsGet, hm]
    · intro hlen
      simp at hlen
  · rcases rest with _ | ⟨q, rest2⟩
    · constructor
      · simp [snippet_detail, objectsGet, hm]
      · intro _
        exact ⟨by simp [snippet_detail, objectsGet, hm],
               List.suffix_append _ _⟩
    · constructor
      · simp [snippet_detail, objectsGet, hm]
      · intro hlen
        simp at hlen

theorem snippet_detail_contract_witness :
    snippet_detail [Snippet.mk "Test".data (some "test".data) "X".data]
        "test".data
      = .ok ⟨200, "the detailview for slug of ".data ++ "test".data⟩ ∧
    "test".data <:+ "the detailview for slug of ".data ++ "test".data :=
  (snippet_detail_contract
    [Snippet.mk "Test".data (some "test".data) "X".data] "test".data).2
    (by decide)

/-- C5: `save` always stores `slugify` of the title, and saving the same
record twice leaves both the slug and the whole record unchanged: slug
derivation is deterministic and `save` is idempotent. -/
theorem save_deterministic_idempotent (nfkd : List Char → List Char)
    (s : Snippet) :
    (Snippet.save nfkd s).slug = some (slugify nfkd s.title) ∧
    Snippet.save nfkd (Snippet.save nfkd s) = Snippet.save nfkd s := by
  constructor
  · rfl
  · rfl

/-- C6: the title `Hello World` derives the slug `hello-world`, and the
title `  Multiple   Spaces!! ` (two leading spaces, three inner spaces,
two exclamation marks, one trailing space) derives `multiple-spaces`. -/
theorem scenario_slugs :
    slugify id "Hello World".data = "hello-world".data ∧
    slugify id "  Multiple   Spaces!! ".data = "multiple-spaces".data := by
  decide

/-- C7: with zero stored Snippets the sitemap enumeration yields exactly
one URL entry, the static `about` route resolved through the route table
to the concrete path `/about/`. -/
theorem sitemap_zero_snippets :
    sitemapEntries [] = ["/about/".data] ∧
    (sitemapEntries []).length = 1 ∧
    reverseName "about".data = some "/about/".data := by
  decide

/-- C8: slug derivation is total (a plain function in this embedding),
and every whitespace-only title, the empty title included, derives the
empty slug rather than an error. -/
theorem slugify_whitespace_empty (value : List Char)
    (h : ∀ c ∈ value, pyIsSpace c = true) :
    slugify id value = [] := by
  simp only [slugify, id]
  have hascii : value.filter (fun c => decide (c.toNat < 128)) = value :=
    List.filter_eq_self.mpr
      (fun a ha => by simp [pyIsSpace_toNat_lt a (h a ha)])
  rw [hascii]
  have hmap : value.map Char.toLower = value := by
    rw [List.map_congr_left
          (fun a ha => (toLower_of_space a (h a ha)).trans rfl)]
    simp
  rw [hmap]
  have hkept :
      value.filter
        (fun c => pyIsWord c || pyIsSpace c || decide (c = '-')) = value :=
    List.filter_eq_self.mpr (fun a ha => by simp [h a ha])
  rw [hkept]
  exact stripDU_collapseSeps_all_sep value (fun c hc => by simp [isSep, h c hc])

theorem slugify_whitespace_empty_witness :
    slugify id "  ".data = [] :=
  slugify_whitespace_empty "  ".data (by decide)

/-- C9: every stored Snippet's absolute URL is a slash followed by its
slug with no trailing slash (whenever the slug is non-empty), while every
path the `'<slug:slug>/'` route matches ends in a trailing slash; hence
no Snippet URL emitted into the sitemap is matched by the detail
route. -/
theorem snippet_urls_escape_detail_route (nfkd : List Char → List Char)
    (ops : List Op) :
    (∀ path seg, matchSlugRoute path = some seg →
        path.getLast? = some '/') ∧
    (∀ r ∈ runOps nfkd ops,
      Snippet.get_absolute_url r = '/' :: slugify nfkd r.title ∧
      (slugify nfkd r.title ≠ [] →
        (Snippet.get_absolute_url r).getLast? ≠ some '/') ∧
      matchSlugRoute (slugify nfkd r.title) = none) := by
  constructor
  · intro path seg h
    unfold matchSlugRoute at h
    by_cases hc : path.getLast? = some '/' ∧ path.dropLast ≠ [] ∧
        path.dropLast.all isSlugChar = true
    · exact hc.1
    · rw [if_neg hc] at h
      cases h
  · intro r hr
    have hs := saved_slug_never_stale nfkd ops r hr
    have hurl : Snippet.get_absolute_url r = '/' :: slugify nfkd r.title := by
      unfold Snippet.get_absolute_url
      rw [hs]
    refine ⟨hurl, ?_, matchSlugRoute_slugify_none nfkd r.title⟩
    intro hne hlast
    rw [hurl] at hlast
    rcases hsl : slugify nfkd r.title with _ | ⟨c, rest⟩
    · exact hne hsl
    · rw [hsl, List.getLast?_cons_cons] at hlast
      have hmem := List.mem_of_mem_getLast? hlast
      have hcs := slugify_mem nfkd r.title '/'
        (by rw [hsl]; exact hmem)
      rcases hcs with h | h | h | h <;> exact absurd h (by decide)

theorem snippet_urls_escape_detail_route_witness :
    Snippet.get_absolute_url
        (Snippet.mk "Test".data (some "test".data) "X".data)
      = '/' :: slugify id
          (Snippet.mk "Test".data (some "test".data) "X".data).title ∧
    (slugify id
        (Snippet.mk "Test".data (some "test".data) "X".data).title ≠ [] →
      (Snippet.get_absolute_url
          (Snippet.mk "Test".data (some "test".data) "X".data)).getLast?
        ≠ some '/') ∧
    matchSlugRoute (slugify id
        (Snippet.mk "Test".data (some "test".data) "X".data).title)
      = none :=
  (snippet_urls_escape_detail_route id
      [Op.createOp "Test".data "X".data]).2
    (Snippet.mk "Test".data (some "test".data) "X".data) (by decide)

/-- C10: when two or more stored Snippets share the requested slug, the
detail handler neither answers 404 nor picks a first match: the lookup
raises `MultipleObjectsReturned`, which is distinct from the not-found
signal and escapes the handler unrecovered. -/
theorem detail_multiple_matches (store : List Snippet) (slug : List Char)
    (h : 2 ≤ (findMatches store slug).length) :
    snippet_detail store slug
      = .error GetException.multipleObjectsReturned ∧
    GetException.multipleObjectsReturned ≠ GetException.doesNotExist ∧
    ∀ resp, snippet_detail store slug ≠ Except.ok resp := by
  have key : snippet_detail store slug
      = .error GetException.multipleObjectsReturned := by
    rcases hm : findMatches store slug with _ | ⟨r, _ | ⟨q, rest⟩⟩
    · rw [hm] at h
      simp at h
    · rw [hm] at h
      simp at h
    · simp [snippet_detail, objectsGet, hm]
  refine ⟨key, by decide, ?_⟩
  intro resp h2
  rw [key] at h2
  exact Except.noConfusion h2

theorem detail_multiple_matches_witness :
    snippet_detail
        [Snippet.mk "Test".data (some "test".data) "X".data,
         Snippet.mk "Test 2".data (some "test".data) "Y".data]
        "test".data
      = .error GetException.multipleObjectsReturned ∧
    GetException.multipleObjectsReturned ≠ GetException.doesNotExist ∧
    ∀ resp,
      snippet_detail
          [Snippet.mk "Test".data (some "test".data) "X".data,
           Snippet.mk "Test 2".data (some "test".data) "Y".data]
          "test".data
        ≠ Except.ok resp :=
  detail_multiple_matches
    [Snippet.mk "Test".data (some "test".data) "X".data,
     Snippet.mk "Test 2".data (some "test".data) "Y".data]
    "test".data (by decide)

end DjangoSiteMap
